import Mathlib

/-!
Verification of the HarbourOS NAS Mount Manager
(`admin-ui/harbouros_admin/services/mount_manager.py`).

The Python module is shallowly embedded: Python strings become `String`,
optional dict keys become `Option String`, the persisted registry document
becomes a list of `Mount` records, and every OS side effect (saving the
config document, creating the mount directory, writing the SMB credential
file, installing/removing systemd units) is recorded as an explicit
`Effect` event in the order the code performs it.  Fallible operations
(`raise ValueError`) become `Except String`.
-/

namespace HarbourOS

/-- Python ASCII whitespace, as recognised by `str.strip()`. -/
def pyIsSpace (c : Char) : Bool :=
  c = ' ' || c = '\t' || c = '\n' || c = '\x0d' || c = '\x0c' || c = '\x0b'

/-- Python `str.strip()` restricted to ASCII input: drop leading and
trailing whitespace characters. -/
def pyStrip (s : String) : String :=
  String.mk (((s.data.dropWhile pyIsSpace).reverse.dropWhile pyIsSpace).reverse)

/-- Python `str.split(sep)` for a single-character separator, accumulator
form: empty pieces are kept, and splitting the empty string yields one
empty piece. -/
def pySplitAux (sep : Char) : List Char → List Char → List (List Char)
  | [], acc => [acc.reverse]
  | c :: cs, acc =>
    if c = sep then acc.reverse :: pySplitAux sep cs []
    else pySplitAux sep cs (c :: acc)

/-- Python `s.split(sep)` for a single-character separator. -/
def pySplit (sep : Char) (s : String) : List String :=
  (pySplitAux sep s.data []).map String.mk

/-- Replace every occurrence of the character `t` by the string `r`
(models Python `str.replace` with a single-character needle). -/
def charReplace (t : Char) (r : List Char) : List Char → List Char
  | [] => []
  | c :: cs => (if c = t then r else [c]) ++ charReplace t r cs

/-- Join strings with a separator (Python `sep.join(parts)`). -/
def joinWith (sep : String) : List String → String
  | [] => ""
  | [x] => x
  | x :: y :: xs => x ++ sep ++ joinWith sep (y :: xs)

/-- Python `str.lower()` restricted to ASCII letters, per character. -/
def asciiToLower (c : Char) : Char :=
  if 'A' ≤ c && c ≤ 'Z' then Char.ofNat (c.toNat + 32) else c

/-- Does the string start with a slash (Python `s.startswith('/')`)? -/
def startsWithSlash (s : String) : Bool :=
  match s.data with
  | [] => false
  | c :: _ => c = '/'

/-- Is `p` a contiguous sublist of `l`?  Models Python's `sub in s`. -/
def listIsInfix (p : List Char) : List Char → Bool
  | [] => p.isEmpty
  | c :: cs => p.isPrefixOf (c :: cs) || listIsInfix p cs

/-- Python `'sub' in s` for strings. -/
def strContains (s sub : String) : Bool :=
  listIsInfix sub.data s.data

/-- A character matched by the class `[a-zA-Z0-9._-]` of `_validate_host`. -/
def isHostChar (c : Char) : Bool :=
  c.isAlpha || c.isDigit || c = '.' || c = '_' || c = '-'

/-- A character matched by the class `[a-zA-Z0-9_-]` kept by
`_sanitize_name` (everything else is replaced by a hyphen). -/
def isSlugKeepChar (c : Char) : Bool :=
  c.isAlpha || c.isDigit || c = '_' || c = '-'

/-- `CONFIG_DIR` constant of the module (production path). -/
def CONFIG_DIR : String := "/etc/harbouros"

/-- `MOUNT_BASE` constant of the module (production path). -/
def MOUNT_BASE : String := "/media/nas"

/-- `_sanitize_name`: `re.sub(r"[^a-zA-Z0-9_-]", "-", name.strip().lower())`
(ASCII lowering; any non-ASCII character is replaced by `-` by the regex
either way). -/
def _sanitize_name (name : String) : String :=
  String.mk (((pyStrip name).data.map asciiToLower).map fun c =>
    if isSlugKeepChar c then c else '-')

/-- `_mount_path`: `os.path.join(MOUNT_BASE, _sanitize_name(name))`.
The slug never contains a path separator, so the join is concatenation. -/
def _mount_path (name : String) : String :=
  MOUNT_BASE ++ "/" ++ _sanitize_name name

/-- Python `str.lstrip('/')`: drop every leading slash. -/
def lstripSlashes : List Char → List Char
  | [] => []
  | c :: cs => if c = '/' then lstripSlashes cs else c :: cs

/-- `mount['share'].lstrip('/')` as a function on strings. -/
def lstripSlashesS (s : String) : String :=
  String.mk (lstripSlashes s.data)

/-- Python `str.strip('/')`: drop leading and trailing slashes. -/
def stripSlashesS (s : String) : String :=
  String.mk ((lstripSlashes (lstripSlashes s.data).reverse).reverse)

/-- `_validate_host`.  The argument is `Option.none` when the caller passed
a non-string value (any such value fails `isinstance(host, str)` or
`not host` and raises).  On a string the code strips whitespace, requires
the result to match `^[a-zA-Z0-9._-]+$`, rejects the loopback/any-address
literals and length over 253, and returns the stripped host. -/
def _validate_host : Option String → Except String String
  | Option.none => Except.error "Host is required"
  | Option.some h =>
    if h = "" then Except.error "Host is required"
    else
      let host := pyStrip h
      if !(host.length > 0 && host.data.all isHostChar) then
        Except.error "Host contains invalid characters"
      else if host = "localhost" || host = "127.0.0.1" ||
              host = "0.0.0.0" || host = "::1" then
        Except.error "Cannot mount localhost"
      else if host.length > 253 then
        Except.error "Hostname too long"
      else
        Except.ok host

/-- `_validate_share`: rejects empty/non-string input and any occurrence of
`..`; returns the share unchanged. -/
def _validate_share : Option String → Except String String
  | Option.none => Except.error "Share path is required"
  | Option.some s =>
    if s = "" then Except.error "Share path is required"
    else if strContains s ".." then Except.error "Share path cannot contain dotdot"
    else Except.ok s

/-- `_SAFE_MOUNT_OPTIONS`, the allow-list of mount-option keys. -/
def _SAFE_MOUNT_OPTIONS : List String :=
  ["nfsvers", "vers", "soft", "hard", "timeo", "retrans", "ro", "rw",
   "credentials", "iocharset", "file_mode", "dir_mode", "uid", "gid",
   "sec", "noacl", "nolock", "intr"]

/-- The stripped key portion of one comma-separated option token:
`opt.split('=')[0].strip()`. -/
def optKey (opt : String) : String :=
  pyStrip ((pySplit '=' opt).headD "")

/-- `_validate_options`: `None`/empty input yields `None`; otherwise each
comma-separated token's stripped key before the first `=` must be empty or
in the allow-list, and the original string is returned. -/
def _validate_options (options : Option String) : Except String (Option String) :=
  match options with
  | Option.none => Except.ok Option.none
  | Option.some s =>
    if s = "" then Except.ok Option.none
    else if (pySplit ',' s).all (fun opt =>
        decide (optKey opt = "" ∨ optKey opt ∈ _SAFE_MOUNT_OPTIONS)) then
      Except.ok (Option.some s)
    else
      Except.error "Mount option is not allowed"

/-- `_systemd_escape`, deterministic fallback branch: strip outer slashes,
split on `/`, escape backslashes and hyphens inside each component, join
with `-`. -/
def _systemd_escape (path : String) : String :=
  joinWith "-"
    ((pySplit '/' (stripSlashesS path)).map fun part =>
      String.mk (charReplace '-' "\\x2d".data (charReplace '\\' "\\x5c".data part.data)))

/-- One entry of the persisted registry document (`mounts.json`).  The
keys `id`, `name`, `type`, `host`, `share` are always present; `options`,
`username`, `password`, `domain` model optional dict keys (`add_mount` and
`update_mount` drop `None`-valued kwargs, so a present key always holds a
string). -/
structure Mount where
  id : String
  name : String
  type : String
  host : String
  share : String
  options : Option String
  username : Option String
  password : Option String
  domain : Option String
deriving Repr, DecidableEq

/-- The structured content of a generated systemd `.mount` unit: the
`[Mount]` section fields of `_generate_mount_unit`'s output text. -/
structure MountUnit where
  description : String
  what : String
  whereAt : String
  fsType : String
  options : String
  timeoutSec : Nat
deriving Repr, DecidableEq

/-- The structured content of a generated systemd `.automount` unit. -/
structure AutomountUnit where
  description : String
  whereAt : String
  timeoutIdleSec : Nat
deriving Repr, DecidableEq

/-- Path of the SMB credentials file for a mount name:
`os.path.join(CONFIG_DIR, f"smb-{_sanitize_name(name)}.creds")`. -/
def credsFilePath (name : String) : String :=
  CONFIG_DIR ++ "/smb-" ++ _sanitize_name name ++ ".creds"

/-- `_generate_mount_unit`: pure map from a `Mount` to the `.mount` unit
fields and the escaped unit name.  Mirrors the `nfs`/`smb` branching:
NFS prepends a single `/` to a share lacking one and joins `host:share`;
SMB strips all leading slashes and joins `//host/share`; `Options=` is the
stored `options` value when the key is present, else the type default. -/
def _generate_mount_unit (mount : Mount) : MountUnit × String :=
  let mount_path := _mount_path mount.name
  let unit_name := _systemd_escape mount_path
  if mount.type = "nfs" then
    let share := if startsWithSlash mount.share then mount.share else "/" ++ mount.share
    let source := mount.host ++ ":" ++ share
    let options := mount.options.getD "nfsvers=4,soft,timeo=150,retrans=3"
    (⟨"NAS Mount: " ++ mount.name, source, mount_path, "nfs", options, 30⟩, unit_name)
  else
    let share := lstripSlashesS mount.share
    let source := "//" ++ mount.host ++ "/" ++ share
    let options := mount.options.getD
      ("vers=3.0,credentials=" ++ credsFilePath mount.name ++
       ",iocharset=utf8,file_mode=0775,dir_mode=0775")
    (⟨"NAS Mount: " ++ mount.name, source, mount_path, "cifs", options, 30⟩, unit_name)

/-- `_generate_automount_unit`: the `.automount` unit fields and the
escaped unit name; `TimeoutIdleSec` is the literal 600. -/
def _generate_automount_unit (mount : Mount) : AutomountUnit × String :=
  let mount_path := _mount_path mount.name
  let unit_name := _systemd_escape mount_path
  (⟨"Automount NAS: " ++ mount.name, mount_path, 600⟩, unit_name)

/-- An observable side effect of a mutating operation, recorded in the
order the code performs it: the whole-document config save, mount-point
directory creation/removal, SMB credential file write (with the exact
`username=`/`password=`/`domain=` values written), unit install
(`_install_units`, which writes both unit files and enables the
automount), and unit removal (`_remove_units`, which disables and deletes
both unit files and the credentials file).  Install/remove events carry
the mount name they were invoked with; every path and unit identifier used
by those helpers is derived deterministically from that name. -/
inductive Effect where
  | saveConfig (mounts : List Mount)
  | makeMountDir (path : String)
  | writeSmbCreds (name : String) (username : String) (password : String) (domain : String)
  | installUnits (name : String)
  | removeUnits (name : String)
  | removeMountDir (path : String)
deriving Repr, DecidableEq

/-- The persisted state: the registry document's ordered mount list. -/
structure SysState where
  mounts : List Mount
deriving Repr, DecidableEq

/-- `_write_smb_credentials`: emits a credential-file write only for
`type == "smb"`, with Python `dict.get` defaults (`''`, `''`,
`'WORKGROUP'`). -/
def smbCredEffects (mount : Mount) : List Effect :=
  if mount.type = "smb" then
    [Effect.writeSmbCreds mount.name (mount.username.getD "")
      (mount.password.getD "") (mount.domain.getD "WORKGROUP")]
  else
    []

/-- The keyword arguments `app.py` passes to `add_mount`
(`username`, `password`, `domain`, `options`, each possibly `None`). -/
structure AddKwargs where
  username : Option String
  password : Option String
  domain : Option String
  options : Option String
deriving Repr, DecidableEq

/-- `add_mount(name, mount_type, host, share, **kwargs)`.  `newId` stands
for the random `str(uuid.uuid4())[:8]`.  Validation runs first
(`_validate_options` only when `kwargs.get("options")` is truthy, i.e.
present and non-empty); any failure raises before the registry is loaded.
On success the new entry (with `None`-valued kwargs dropped) is appended,
the document is saved, the mount directory is created, SMB credentials are
written when applicable, and units are installed. -/
def add_mount (newId : String) (st : SysState) (name mount_type : String)
    (host share : Option String) (kw : AddKwargs) :
    Except String (SysState × List Effect × Mount) := do
  let host ← _validate_host host
  let share ← _validate_share share
  match kw.options with
  | Option.none => pure ()
  | Option.some s =>
    if s = "" then pure ()
    else
      match _validate_options (Option.some s) with
      | Except.error e => throw e
      | Except.ok _ => pure ()
  let mount : Mount :=
    ⟨newId, name, mount_type, host, share, kw.options, kw.username, kw.password, kw.domain⟩
  let mounts := st.mounts ++ [mount]
  let effs := [Effect.saveConfig mounts, Effect.makeMountDir (_mount_path name)]
    ++ smbCredEffects mount ++ [Effect.installUnits mount.name]
  Except.ok (⟨mounts⟩, effs, mount)

/-- The `**kwargs` patch accepted by `update_mount`: each field optional;
only present-and-non-`None` keys are merged. -/
structure Patch where
  name : Option String
  type : Option String
  host : Option String
  share : Option String
  options : Option String
  username : Option String
  password : Option String
  domain : Option String
deriving Repr, DecidableEq

/-- `config["mounts"][i].update({k: v for k, v in kwargs.items() if v is
not None})`: overwrite a field exactly when the patch supplies a value. -/
def dictUpdate (m : Mount) (p : Patch) : Mount :=
  ⟨m.id,
   p.name.getD m.name,
   p.type.getD m.type,
   p.host.getD m.host,
   p.share.getD m.share,
   match p.options with | Option.some v => Option.some v | Option.none => m.options,
   match p.username with | Option.some v => Option.some v | Option.none => m.username,
   match p.password with | Option.some v => Option.some v | Option.none => m.password,
   match p.domain with | Option.some v => Option.some v | Option.none => m.domain⟩

/-- The loop body of `update_mount`: find the first entry with the given
id, returning the pre-update entry, the merged entry, and the new list. -/
def updateFirst (mount_id : String) (p : Patch) :
    List Mount → Option (Mount × Mount × List Mount)
  | [] => Option.none
  | m :: rest =>
    if m.id = mount_id then
      Option.some (m, dictUpdate m p, dictUpdate m p :: rest)
    else
      match updateFirst mount_id p rest with
      | Option.none => Option.none
      | Option.some (old, merged, rest2) => Option.some (old, merged, m :: rest2)

/-- `update_mount(mount_id, **kwargs)`: on the first matching entry,
remove the installed units under the pre-update name, merge the non-`None`
patch fields, save the whole document, rewrite SMB credentials when the
merged entry is SMB, install units under the post-update name, and return
the merged entry; with no match, return `None` with no side effects.
No validator is invoked anywhere on this path. -/
def update_mount (st : SysState) (mount_id : String) (p : Patch) :
    Option Mount × SysState × List Effect :=
  match updateFirst mount_id p st.mounts with
  | Option.none => (Option.none, st, [])
  | Option.some (old, merged, mounts) =>
    (Option.some merged, ⟨mounts⟩,
      [Effect.removeUnits old.name, Effect.saveConfig mounts]
        ++ smbCredEffects merged ++ [Effect.installUnits merged.name])

/-- The loop body of `remove_mount`: pop the first entry with the given
id. -/
def removeFirst (mount_id : String) :
    List Mount → Option (Mount × List Mount)
  | [] => Option.none
  | m :: rest =>
    if m.id = mount_id then Option.some (m, rest)
    else
      match removeFirst mount_id rest with
      | Option.none => Option.none
      | Option.some (f, rest2) => Option.some (f, m :: rest2)

/-- `remove_mount(mount_id)`: on the first matching entry, remove its
units (pre-removal name), best-effort remove the mount directory, pop the
entry, save, and return `True`; otherwise return `False` with the registry
untouched and no side effects. -/
def remove_mount (st : SysState) (mount_id : String) :
    Bool × SysState × List Effect :=
  match removeFirst mount_id st.mounts with
  | Option.none => (false, st, [])
  | Option.some (m, rest) =>
    (true, ⟨rest⟩,
      [Effect.removeUnits m.name, Effect.removeMountDir (_mount_path m.name),
       Effect.saveConfig rest])

/-- Sample NFS mount used throughout: the spec's `movies` example. -/
def mMovies : Mount :=
  ⟨"id1", "movies", "nfs", "192.168.1.100", "/media/Movies",
   Option.none, Option.none, Option.none, Option.none⟩

/-- Sample SMB mount used throughout: the spec's `docs` example, with
credentials supplied. -/
def mDocs : Mount :=
  ⟨"abc12345", "docs", "smb", "192.168.1.200", "Documents",
   Option.none, Option.some "alice", Option.some "hunter2", Option.some "CORP"⟩

/-- Empty keyword-argument set for `add_mount`. -/
def noKwargs : AddKwargs :=
  ⟨Option.none, Option.none, Option.none, Option.none⟩

/-- C4: for the NFS mount {name movies, host 192.168.1.100, share
/media/Movies} with no explicit options, the generated mount unit has
source `192.168.1.100:/media/Movies`, type `nfs`, options containing
`nfsvers=4`, and the automount unit has a 600-second idle timeout; for
the SMB mount {name docs, host 192.168.1.200, share Documents} the mount
unit has source `//192.168.1.200/Documents` and type `cifs`. -/
theorem generate_unit_examples :
    (_generate_mount_unit mMovies).1.what = "192.168.1.100:/media/Movies" ∧
    (_generate_mount_unit mMovies).1.fsType = "nfs" ∧
    strContains (_generate_mount_unit mMovies).1.options "nfsvers=4" = true ∧
    (_generate_automount_unit mMovies).1.timeoutIdleSec = 600 ∧
    (_generate_mount_unit mDocs).1.what = "//192.168.1.200/Documents" ∧
    (_generate_mount_unit mDocs).1.fsType = "cifs" := by
  decide

/-- C1: refuted as stated — `add_mount` copies every non-`None` keyword
argument, including `username`, `password` and `domain`, into the mount
dict, appends that dict to the persisted registry document, and returns
it to the caller (which `app.py` echoes in the 201 response).  Adding the
`docs` SMB mount with credentials yields a registry entry and a returned
value whose `password` field is the supplied password. -/
theorem add_mount_serializes_credentials :
    ∃ st effs mnt,
      add_mount "abc12345" ⟨[]⟩ "docs" "smb"
          (Option.some "192.168.1.200") (Option.some "Documents")
          ⟨Option.some "alice", Option.some "hunter2", Option.some "CORP",
           Option.none⟩
        = Except.ok (st, effs, mnt) ∧
      mnt.username = Option.some "alice" ∧
      mnt.password = Option.some "hunter2" ∧
      mnt.domain = Option.some "CORP" ∧
      st.mounts = [mnt] := by
  exact ⟨_, _, _, rfl, rfl, rfl, rfl, rfl⟩

/-- C2: refuted as stated — `add_mount` does validate host, share and
options before touching any state (the same invalid host makes it raise
with no side effects), but `update_mount` invokes no validator at all: a
patch whose host is `bad/host` (rejected by `_validate_host`) is merged
into the registry, saved, and units are reinstalled. -/
theorem update_mount_skips_validators :
    _validate_host (Option.some "bad/host")
        = Except.error "Host contains invalid characters" ∧
    add_mount "id9" ⟨[mMovies]⟩ "x" "nfs"
        (Option.some "bad/host") (Option.some "/s") noKwargs
      = Except.error "Host contains invalid characters" ∧
    update_mount ⟨[mMovies]⟩ "id1"
        ⟨Option.none, Option.none, Option.some "bad/host", Option.none,
         Option.none, Option.none, Option.none, Option.none⟩
      = (Option.some { mMovies with host := "bad/host" },
         ⟨[{ mMovies with host := "bad/host" }]⟩,
         [Effect.removeUnits "movies",
          Effect.saveConfig [{ mMovies with host := "bad/host" }],
          Effect.installUnits "movies"]) := by
  refine ⟨rfl, rfl, ?_⟩
  decide

/-- C3: refuted as stated — `add_mount` performs no uniqueness or slug
check: with an entry named `movies` already in the registry, adding a
mount named `Movies` (which sanitizes to the same slug, hence the same
mount path) succeeds and appends a second entry whose derived mount path
equals the existing one. -/
theorem add_mount_allows_slug_collision :
    ∃ st effs mnt,
      add_mount "id2" ⟨[mMovies]⟩ "Movies" "nfs"
          (Option.some "192.168.1.101") (Option.some "/media/Movies2") noKwargs
        = Except.ok (st, effs, mnt) ∧
      st.mounts = [mMovies, mnt] ∧
      mnt.name = "Movies" ∧
      _mount_path mnt.name = _mount_path mMovies.name := by
  refine ⟨_, _, _, rfl, rfl, rfl, ?_⟩
  decide

/-- C5: refuted on the empty-string case — an explicitly empty `options`
string passed to `add_mount` is not `None`, so it is stored in the
registry entry; `_generate_mount_unit` then finds the `options` key
present and emits an empty `Options=` field instead of the NFS type
default.  (`_validate_options` is also skipped, because `add_mount` only
validates a truthy options value.) -/
theorem empty_options_bypasses_default :
    ∃ st effs mnt,
      add_mount "id1" ⟨[]⟩ "movies" "nfs"
          (Option.some "192.168.1.100") (Option.some "/media/Movies")
          ⟨Option.none, Option.none, Option.none, Option.some ""⟩
        = Except.ok (st, effs, mnt) ∧
      mnt.options = Option.some "" ∧
      (_generate_mount_unit mnt).1.options = "" ∧
      (_generate_mount_unit mnt).1.options ≠ "nfsvers=4,soft,timeo=150,retrans=3" := by
  refine ⟨_, _, _, rfl, rfl, rfl, ?_⟩
  decide

/-- C6 counterexample: the claim says every string containing a character
outside `[A-Za-z0-9._-]` is rejected, but `_validate_host` strips leading
and trailing whitespace before checking, so `" nas.local "` — which
contains two spaces, characters outside the class — is accepted. -/
theorem validate_host_accepts_untrimmed :
    (" nas.local ").data.any (fun c => !(isHostChar c)) = true ∧
    _validate_host (Option.some " nas.local ") = Except.ok "nas.local" :=
  ⟨rfl, rfl⟩

/-- C6 (amended): `_validate_host` rejects non-string and empty input,
then strips leading/trailing whitespace and checks the *stripped* host:
it succeeds, returning the stripped host, exactly when the stripped form
is non-empty, consists only of `[A-Za-z0-9._-]` characters, is none of
`localhost`/`127.0.0.1`/`0.0.0.0`/`::1`, and has length at most 253.
In particular `192.168.1.100` and `nas.local` are accepted unchanged. -/
theorem validate_host_characterization (s t : String) :
    _validate_host Option.none = Except.error "Host is required" ∧
    _validate_host (Option.some "") = Except.error "Host is required" ∧
    (_validate_host (Option.some s) = Except.ok t ↔
      (t = pyStrip s ∧ 0 < (pyStrip s).length ∧
       (pyStrip s).data.all isHostChar = true ∧
       pyStrip s ≠ "localhost" ∧ pyStrip s ≠ "127.0.0.1" ∧
       pyStrip s ≠ "0.0.0.0" ∧ pyStrip s ≠ "::1" ∧
       (pyStrip s).length ≤ 253)) ∧
    _validate_host (Option.some "192.168.1.100") = Except.ok "192.168.1.100" ∧
    _validate_host (Option.some "nas.local") = Except.ok "nas.local" := by
  refine ⟨rfl, rfl, ?_, rfl, rfl⟩
  simp only [_validate_host]
  split_ifs with h0 h1 h2 h3
  · constructor
    · intro h; exact h.elim
    · rintro ⟨-, hlen, -⟩
      subst h0
      exact absurd hlen (by decide)
  · constructor
    · intro h; exact h.elim
    · rintro ⟨-, hlen, hall, -⟩
      simp [hlen, hall] at h1
  · constructor
    · intro h; exact h.elim
    · rintro ⟨-, -, -, ha, hb, hc, hd, -⟩
      simp [ha, hb, hc, hd] at h2
  · constructor
    · intro h; exact h.elim
    · rintro ⟨-, -, -, -, -, -, -, hle⟩
      omega
  · have h1' : (decide (0 < (pyStrip s).length)
        && (pyStrip s).data.all isHostChar) = true := by
      cases hcb : (decide (0 < (pyStrip s).length)
          && (pyStrip s).data.all isHostChar) with
      | false => exact absurd (by rw [hcb]; rfl) h1
      | true => rfl
    rw [Bool.and_eq_true, decide_eq_true_eq] at h1'
    simp only [Bool.or_eq_true, decide_eq_true_eq, not_or] at h2
    obtain ⟨⟨⟨ha, hb⟩, hc⟩, hd⟩ := h2
    constructor
    · intro h
      injection h with h
      exact ⟨h.symm, h1'.1, h1'.2, ha, hb, hc, hd, by omega⟩
    · rintro ⟨ht, -⟩
      rw [ht]

/-- C6 witness: the amended characterization applied to a concrete
whitespace-padded host. -/
theorem validate_host_characterization_witness :
    _validate_host (Option.some "  nas01.example.com  ")
      = Except.ok "nas01.example.com" :=
  (validate_host_characterization "  nas01.example.com  "
    "nas01.example.com").2.2.1.mpr (by decide)

/-- Helper: `updateFirst` on a list whose first id-match is `m` (no entry
of `pre` matches) merges exactly `m` and leaves `pre` and `post` intact. -/
theorem updateFirst_append (pre post : List Mount) (m : Mount) (p : Patch)
    (mid : String) (hm : m.id = mid) (hpre : ∀ m' ∈ pre, m'.id ≠ mid) :
    updateFirst mid p (pre ++ m :: post) =
      Option.some (m, dictUpdate m p, pre ++ dictUpdate m p :: post) := by
  induction pre with
  | nil => simp [updateFirst, hm]
  | cons a pre ih =>
    have ha : a.id ≠ mid := hpre a (List.mem_cons_self a pre)
    have ih' := ih fun m' hm' => hpre m' (List.mem_cons_of_mem a hm')
    simp [updateFirst, ha, ih']

/-- C7: on a registry whose first entry with the given id is `m`, update
replaces exactly that entry by the merge of the supplied patch fields
(id unchanged; present-and-non-null patch fields overwrite, absent fields
keep their prior values), leaves every other entry in place, removes the
installed units under the pre-update name `m.name`, saves, and reinstalls
units under the post-update merged name. -/
theorem update_mount_frame (pre post : List Mount) (m : Mount) (p : Patch)
    (mid : String) (hm : m.id = mid) (hpre : ∀ m' ∈ pre, m'.id ≠ mid) :
    update_mount ⟨pre ++ m :: post⟩ mid p =
      (Option.some (dictUpdate m p), ⟨pre ++ dictUpdate m p :: post⟩,
        [Effect.removeUnits m.name,
         Effect.saveConfig (pre ++ dictUpdate m p :: post)]
          ++ smbCredEffects (dictUpdate m p)
          ++ [Effect.installUnits (dictUpdate m p).name]) ∧
    (dictUpdate m p).id = m.id ∧
    (dictUpdate m p).name = p.name.getD m.name ∧
    (dictUpdate m p).type = p.type.getD m.type ∧
    (dictUpdate m p).host = p.host.getD m.host ∧
    (dictUpdate m p).share = p.share.getD m.share ∧
    (dictUpdate m p).options
      = (if p.options.isSome then p.options else m.options) ∧
    (dictUpdate m p).username
      = (if p.username.isSome then p.username else m.username) ∧
    (dictUpdate m p).password
      = (if p.password.isSome then p.password else m.password) ∧
    (dictUpdate m p).domain
      = (if p.domain.isSome then p.domain else m.domain) := by
  refine ⟨?_, rfl, ?_, ?_, ?_, ?_, ?_, ?_, ?_, ?_⟩
  · simp [update_mount, updateFirst_append pre post m p mid hm hpre]
  · cases hp : p.name <;> simp [dictUpdate, hp]
  · cases hp : p.type <;> simp [dictUpdate, hp]
  · cases hp : p.host <;> simp [dictUpdate, hp]
  · cases hp : p.share <;> simp [dictUpdate, hp]
  · cases hp : p.options <;> simp [dictUpdate, hp]
  · cases hp : p.username <;> simp [dictUpdate, hp]
  · cases hp : p.password <;> simp [dictUpdate, hp]
  · cases hp : p.domain <;> simp [dictUpdate, hp]

/-- C7 witness: renaming the `docs` entry in a two-entry registry removes
units under the old name `docs` and reinstalls under `archive`. -/
theorem update_mount_frame_witness :
    update_mount ⟨[mMovies, mDocs]⟩ "abc12345"
        ⟨Option.some "archive", Option.none, Option.none, Option.none,
         Option.none, Option.none, Option.none, Option.none⟩ =
      (Option.some (dictUpdate mDocs
          ⟨Option.some "archive", Option.none, Option.none, Option.none,
           Option.none, Option.none, Option.none, Option.none⟩),
       ⟨[mMovies] ++ dictUpdate mDocs
          ⟨Option.some "archive", Option.none, Option.none, Option.none,
           Option.none, Option.none, Option.none, Option.none⟩ :: []⟩,
       [Effect.removeUnits mDocs.name,
        Effect.saveConfig ([mMovies] ++ dictUpdate mDocs
          ⟨Option.some "archive", Option.none, Option.none, Option.none,
           Option.none, Option.none, Option.none, Option.none⟩ :: [])]
         ++ smbCredEffects (dictUpdate mDocs
          ⟨Option.some "archive", Option.none, Option.none, Option.none,
           Option.none, Option.none, Option.none, Option.none⟩)
         ++ [Effect.installUnits (dictUpdate mDocs
          ⟨Option.some "archive", Option.none, Option.none, Option.none,
           Option.none, Option.none, Option.none, Option.none⟩).name]) :=
  (update_mount_frame [mMovies] [] mDocs
    ⟨Option.some "archive", Option.none, Option.none, Option.none,
     Option.none, Option.none, Option.none, Option.none⟩
    "abc12345" rfl (by decide)).1

/-- Helper: `removeFirst` finds nothing exactly when no entry matches. -/
theorem removeFirst_eq_none_iff (mid : String) (ms : List Mount) :
    removeFirst mid ms = Option.none ↔ ∀ m ∈ ms, m.id ≠ mid := by
  induction ms with
  | nil => simp [removeFirst]
  | cons a tl ih =>
    by_cases ha : a.id = mid
    · simp only [removeFirst, if_pos ha]
      constructor
      · intro h; exact Option.noConfusion h
      · intro h; exact absurd ha (h a (List.mem_cons_self a tl))
    · cases hr : removeFirst mid tl with
      | none =>
        have htl := ih.mp hr
        simp only [removeFirst, if_neg ha, hr]
        constructor
        · intro _ m hm
          rcases List.mem_cons.mp hm with h | h
          · rw [h]; exact ha
          · exact htl m h
        · intro _; trivial
      | some pr =>
        obtain ⟨f, rest2⟩ := pr
        have hne : ¬ ∀ m ∈ tl, m.id ≠ mid := fun hall => by
          rw [ih.mpr hall] at hr
          exact Option.noConfusion hr
        simp only [removeFirst, if_neg ha, hr]
        constructor
        · intro h; exact Option.noConfusion h
        · intro hall
          exact absurd (fun m hm => hall m (List.mem_cons_of_mem a hm)) hne

/-- Helper: under unique ids, a successful `removeFirst` returns a
matching member and the original list with every `mid` entry removed. -/
theorem removeFirst_some_filter (mid : String) (ms : List Mount)
    (hnd : (ms.map Mount.id).Nodup) (m : Mount) (rest : List Mount)
    (h : removeFirst mid ms = Option.some (m, rest)) :
    m ∈ ms ∧ m.id = mid ∧ rest = ms.filter (fun x => decide (x.id ≠ mid)) := by
  induction ms generalizing m rest with
  | nil => exact Option.noConfusion h
  | cons a tl ih =>
    rw [List.map_cons, List.nodup_cons] at hnd
    obtain ⟨hna, hndtl⟩ := hnd
    by_cases ha : a.id = mid
    · rw [removeFirst, if_pos ha] at h
      simp only [Option.some.injEq, Prod.mk.injEq] at h
      obtain ⟨rfl, rfl⟩ := h
      refine ⟨List.mem_cons_self _ _, ha, ?_⟩
      have htl : ∀ y ∈ tl, y.id ≠ mid := by
        intro y hy hyid
        exact hna (by rw [ha, ← hyid]; exact List.mem_map_of_mem Mount.id hy)
      rw [List.filter_cons_of_neg (by simp [ha]), List.filter_eq_self.mpr
        (fun y hy => decide_eq_true (htl y hy))]
    · rw [removeFirst, if_neg ha] at h
      cases hr : removeFirst mid tl with
      | none =>
        rw [hr] at h
        exact Option.noConfusion h
      | some pr =>
        obtain ⟨f, rest2⟩ := pr
        rw [hr] at h
        simp only [Option.some.injEq, Prod.mk.injEq] at h
        obtain ⟨rfl, rfl⟩ := h
        obtain ⟨hmem, hid, hfil⟩ := ih hndtl f rest2 hr
        refine ⟨List.mem_cons_of_mem a hmem, hid, ?_⟩
        rw [List.filter_cons_of_pos (by exact decide_eq_true ha), hfil]

/-- C8: on a registry with unique ids, `remove_mount` returns `true`
exactly when an entry with the id is present, the resulting registry is
the original with that entry deleted (all others untouched), and a second
(and any subsequent) remove with the same id returns `false` and leaves
the registry unchanged. -/
theorem remove_mount_spec (st : SysState) (mid : String)
    (h : (st.mounts.map Mount.id).Nodup) :
    ((remove_mount st mid).1 = true ↔ ∃ m ∈ st.mounts, m.id = mid) ∧
    (remove_mount st mid).2.1.mounts
      = st.mounts.filter (fun x => decide (x.id ≠ mid)) ∧
    (remove_mount (remove_mount st mid).2.1 mid).1 = false ∧
    (remove_mount (remove_mount st mid).2.1 mid).2.1
      = (remove_mount st mid).2.1 := by
  cases hr : removeFirst mid st.mounts with
  | none =>
    have hall := (removeFirst_eq_none_iff mid st.mounts).mp hr
    have hfil : st.mounts.filter (fun x => decide (x.id ≠ mid)) = st.mounts :=
      List.filter_eq_self.mpr (fun x hx => decide_eq_true (hall x hx))
    have hrm : remove_mount st mid = (false, st, []) := by
      simp [remove_mount, hr]
    refine ⟨?_, ?_, ?_, ?_⟩ <;> rw [hrm]
    · simp only [Bool.false_eq_true, false_iff]
      rintro ⟨m, hm, hid⟩
      exact hall m hm hid
    · exact hfil.symm
    · rw [hrm]
    · rw [hrm]
  | some pr =>
    obtain ⟨m0, rest⟩ := pr
    obtain ⟨hmem, hid, hfil⟩ := removeFirst_some_filter mid st.mounts h m0 rest hr
    have hrm : remove_mount st mid =
        (true, ⟨rest⟩,
         [Effect.removeUnits m0.name, Effect.removeMountDir (_mount_path m0.name),
          Effect.saveConfig rest]) := by
      simp [remove_mount, hr]
    have hall2 : ∀ x ∈ rest, x.id ≠ mid := by
      intro x hx
      rw [hfil] at hx
      exact of_decide_eq_true (List.mem_filter.mp hx).2
    have hr2 : removeFirst mid rest = Option.none :=
      (removeFirst_eq_none_iff mid rest).mpr hall2
    have hrm2 : remove_mount ⟨rest⟩ mid = (false, ⟨rest⟩, []) := by
      simp [remove_mount, hr2]
    refine ⟨?_, ?_, ?_, ?_⟩ <;> rw [hrm]
    · exact ⟨fun _ => ⟨m0, hmem, hid⟩, fun _ => rfl⟩
    · exact hfil
    · rw [hrm2]
    · rw [hrm2]

/-- Registry used by the concrete witnesses: the two sample mounts. -/
def sampleRegistry : SysState := ⟨[mMovies, mDocs]⟩

/-- C8 witness: the remove specification applied to the two-entry sample
registry and the id of its first entry. -/
theorem remove_mount_spec_witness :
    ((remove_mount sampleRegistry "id1").1 = true ↔
        ∃ m ∈ sampleRegistry.mounts, m.id = "id1") ∧
    (remove_mount sampleRegistry "id1").2.1.mounts
      = sampleRegistry.mounts.filter (fun x => decide (x.id ≠ "id1")) ∧
    (remove_mount (remove_mount sampleRegistry "id1").2.1 "id1").1 = false ∧
    (remove_mount (remove_mount sampleRegistry "id1").2.1 "id1").2.1
      = (remove_mount sampleRegistry "id1").2.1 :=
  remove_mount_spec sampleRegistry "id1" (by decide)

/-- C9: for a non-empty options string, `_validate_options` accepts
exactly when every comma-separated token's stripped key before the first
`=` is empty or allow-listed — the value part is never inspected — and
acceptance returns the input string unmodified.  Concretely `",,"` and
`"=value"` (whitespace/empty keys) are accepted, as is an allow-listed
key with an arbitrary uninspected value. -/
theorem validate_options_spec (s : String) (hs : s ≠ "") :
    (_validate_options (Option.some s) = Except.ok (Option.some s) ↔
      ∀ opt ∈ pySplit ',' s,
        optKey opt = "" ∨ optKey opt ∈ _SAFE_MOUNT_OPTIONS) ∧
    ((¬ ∀ opt ∈ pySplit ',' s,
        optKey opt = "" ∨ optKey opt ∈ _SAFE_MOUNT_OPTIONS) →
      _validate_options (Option.some s)
        = Except.error "Mount option is not allowed") ∧
    _validate_options (Option.some ",,") = Except.ok (Option.some ",,") ∧
    _validate_options (Option.some "=value")
      = Except.ok (Option.some "=value") ∧
    _validate_options (Option.some "uid=$(arbitrary unchecked value)")
      = Except.ok (Option.some "uid=$(arbitrary unchecked value)") := by
  refine ⟨?_, ?_, rfl, rfl, rfl⟩
  · simp only [_validate_options, if_neg hs]
    split_ifs with hc
    · rw [List.all_eq_true] at hc
      exact ⟨fun _ opt hopt => of_decide_eq_true (hc opt hopt), fun _ => rfl⟩
    · rw [List.all_eq_true] at hc
      constructor
      · intro h; exact h.elim
      · intro hall
        exact absurd (fun opt hopt => decide_eq_true (hall opt hopt)) hc
  · intro hbad
    have hcf : ¬((pySplit ',' s).all (fun opt =>
        decide (optKey opt = "" ∨ optKey opt ∈ _SAFE_MOUNT_OPTIONS)) = true) := by
      rw [List.all_eq_true]
      intro hall
      exact hbad (fun opt hopt => of_decide_eq_true (hall opt hopt))
    simp only [_validate_options, if_neg hs, if_neg hcf]

/-- C9 witness: the specification applied to the spec's accepted example
string. -/
theorem validate_options_spec_witness :
    _validate_options (Option.some "nfsvers=4,soft,timeo=150")
      = Except.ok (Option.some "nfsvers=4,soft,timeo=150") :=
  (validate_options_spec "nfsvers=4,soft,timeo=150" (by decide)).1.mpr (by decide)

/-- Helper: the embedding's `lstrip('/')` is `dropWhile (= '/')`. -/
theorem lstripSlashes_eq_dropWhile (l : List Char) :
    lstripSlashes l = l.dropWhile (fun c => c = '/') := by
  induction l with
  | nil => rfl
  | cons c cs ih =>
    by_cases hc : c = '/'
    · simp [lstripSlashes, List.dropWhile_cons, hc, ih]
    · simp [lstripSlashes, List.dropWhile_cons, hc]

/-- C10: `_generate_mount_unit` normalizes the stored share only inside
the generated source field (the generator is a pure function of the
`Mount` record and touches no registry state): for NFS, a share whose
first character is not `/` gets a single `/` prepended in `host:share`,
and a share already starting with `/` is used as-is; for the non-NFS
(SMB) branch every leading `/` is dropped before forming `//host/share`. -/
theorem mount_unit_share_normalization (m : Mount) :
    (m.type = "nfs" → m.share.data.head? ≠ Option.some '/' →
      (_generate_mount_unit m).1.what = m.host ++ ":" ++ ("/" ++ m.share)) ∧
    (m.type = "nfs" → m.share.data.head? = Option.some '/' →
      (_generate_mount_unit m).1.what = m.host ++ ":" ++ m.share) ∧
    (m.type ≠ "nfs" →
      (_generate_mount_unit m).1.what
        = "//" ++ m.host ++ "/"
            ++ String.mk (m.share.data.dropWhile (fun c => c = '/'))) := by
  refine ⟨?_, ?_, ?_⟩
  · intro ht hh
    have hsw : startsWithSlash m.share = false := by
      unfold startsWithSlash
      cases hd : m.share.data with
      | nil => rfl
      | cons c cs =>
        simp only [decide_eq_false_iff_not]
        intro hc
        exact hh (by rw [hd, hc]; rfl)
    simp [_generate_mount_unit, ht, hsw]
  · intro ht hh
    have hsw : startsWithSlash m.share = true := by
      unfold startsWithSlash
      cases hd : m.share.data with
      | nil => rw [hd] at hh; exact absurd hh (by simp)
      | cons c cs =>
        rw [hd] at hh
        simp only [List.head?_cons, Option.some.injEq] at hh
        simp [hh]
    simp [_generate_mount_unit, ht, hsw]
  · intro ht
    simp [_generate_mount_unit, ht, lstripSlashesS, lstripSlashes_eq_dropWhile]

/-- C10 witness: the normalization applied to a slash-less NFS share and
a double-slashed SMB share. -/
theorem mount_unit_share_normalization_witness :
    (_generate_mount_unit ⟨"id7", "exports", "nfs", "10.0.0.9", "vol/data",
        Option.none, Option.none, Option.none, Option.none⟩).1.what
      = "10.0.0.9" ++ ":" ++ ("/" ++ "vol/data") ∧
    (_generate_mount_unit ⟨"id8", "winshare", "smb", "10.0.0.9", "//Backup",
        Option.none, Option.none, Option.none, Option.none⟩).1.what
      = "//" ++ "10.0.0.9" ++ "/"
          ++ String.mk ("//Backup".data.dropWhile (fun c => c = '/')) :=
  ⟨(mount_unit_share_normalization _).1 rfl (by decide),
   (mount_unit_share_normalization _).2.2 (by decide)⟩

end HarbourOS
